import Mathlib

/-! Manalyze output tree (`output_tree_node.h`).

A shallow embedding of `io::OutputTreeNode` and of the operations declared in
`output_tree_node.h`, followed by theorems about them.

Conventions of the embedding.

* A slot of type `boost::shared_ptr<boost::optional<T> >` is an `Option (Option T)`:
  `none` is the null pointer, `some none` a pointer to an empty optional and
  `some (some v)` a pointer to an optional holding `v`.
* Unsigned machine integers are natural numbers; the constructors' parameter
  types bound them (`< 2 ^ 32`, `< 2 ^ 16`, `< 2 ^ 64`).
* `float` and `double` payloads are carried as their IEEE-754 bit patterns.
* A child (`pNode`) is embedded as the node it points to.
* Every `PRINT_WARNING << ... << std::endl` statement appends one line to a log;
  an operation returns its result together with the lines it logged.  The text
  is that of a build without `_DEBUG`, where `DEBUG_INFO` is the empty string.
* Dereferencing a null pointer or an empty optional has no defined result: an
  operation that does so returns `none`.
-/

namespace plugin

/-- Modelled from the spec: the enumeration `plugin::LEVEL` is declared in
`threat_level.h`, which is not among the sources.  The spec describes it as an
enumerated value with a "no opinion" sentinel; every other enumerator is
represented by its underlying integer value. -/
inductive LEVEL where
  | NO_OPINION : LEVEL
  | enumerator (value : Nat) : LEVEL
deriving DecidableEq, Repr

end plugin

namespace io

open plugin

/-- The enumeration `OutputTreeNode::node_type`. -/
inductive node_type where
  | LIST | UINT32 | UINT16 | UINT64 | FLOAT | DOUBLE | STRING | STRINGS | THREAT_LEVEL
deriving DecidableEq, Repr

/-- The enumeration `OutputTreeNode::display_modifier`. -/
inductive display_modifier where
  | NONE | DEC | HEX
deriving DecidableEq, Repr

open node_type display_modifier

/-- Underlying integer value of a `node_type` enumerator. -/
def node_type.value : node_type → Nat
  | LIST => 0
  | UINT32 => 1
  | UINT16 => 2
  | UINT64 => 3
  | FLOAT => 4
  | DOUBLE => 5
  | STRING => 6
  | STRINGS => 7
  | THREAT_LEVEL => 8

/-- The typedef `strings`, a `std::vector<std::string>`. -/
abbrev strings := List String

/-- The class `OutputTreeNode`: its private fields, in declaration order. -/
structure OutputTreeNode where
  _name : String
  _type : node_type
  _uint32_data : Option (Option Nat)
  _uint16_data : Option (Option Nat)
  _uint64_data : Option (Option Nat)
  _float_data : Option (Option Nat)
  _double_data : Option (Option Nat)
  _string_data : Option (Option String)
  _list_data : Option (Option (List OutputTreeNode))
  _strings_data : Option (Option strings)
  _level_data : Option (Option LEVEL)
  _modifier : display_modifier

/-- The typedef `nodes`, a `std::vector<pNode>`. -/
abbrev nodes := List OutputTreeNode

namespace OutputTreeNode

/-- State common to all constructors before the payload slot is set: every
slot is a null pointer. -/
def blank (name : String) (type : node_type) (mod : display_modifier) : OutputTreeNode :=
  { _name := name, _type := type,
    _uint32_data := none, _uint16_data := none, _uint64_data := none,
    _float_data := none, _double_data := none, _string_data := none,
    _list_data := none, _strings_data := none, _level_data := none,
    _modifier := mod }

/-- Constructor `OutputTreeNode(name, boost::uint32_t i, mod = DEC)`. -/
def of_uint32 (name : String) (i : Nat) (mod : display_modifier) : OutputTreeNode :=
  { blank name UINT32 mod with _uint32_data := some (some i) }

/-- Constructor `OutputTreeNode(name, boost::uint16_t s, mod = DEC)`. -/
def of_uint16 (name : String) (s : Nat) (mod : display_modifier) : OutputTreeNode :=
  { blank name UINT16 mod with _uint16_data := some (some s) }

/-- Constructor `OutputTreeNode(name, boost::uint64_t l, mod = DEC)`. -/
def of_uint64 (name : String) (l : Nat) (mod : display_modifier) : OutputTreeNode :=
  { blank name UINT64 mod with _uint64_data := some (some l) }

/-- Constructor `OutputTreeNode(name, float f, mod = NONE)`. -/
def of_float (name : String) (f : Nat) (mod : display_modifier) : OutputTreeNode :=
  { blank name FLOAT mod with _float_data := some (some f) }

/-- Constructor `OutputTreeNode(name, double d, mod = NONE)`. -/
def of_double (name : String) (d : Nat) (mod : display_modifier) : OutputTreeNode :=
  { blank name DOUBLE mod with _double_data := some (some d) }

/-- Constructor `OutputTreeNode(name, const std::string& s, mod = NONE)`. -/
def of_string (name : String) (s : String) (mod : display_modifier) : OutputTreeNode :=
  { blank name STRING mod with _string_data := some (some s) }

/-- Constructor `OutputTreeNode(name, const nodes& n, mod = NONE)`. -/
def of_nodes (name : String) (n : nodes) (mod : display_modifier) : OutputTreeNode :=
  { blank name LIST mod with _list_data := some (some n) }

/-- Constructor `OutputTreeNode(name, const strings& strs, mod = NONE)`. -/
def of_strings (name : String) (strs : strings) (mod : display_modifier) : OutputTreeNode :=
  { blank name STRINGS mod with _strings_data := some (some strs) }

/-- Constructor `OutputTreeNode(name, const string_set& strs, mod = NONE)`; the
set is given by the sequence its iterators traverse, `strs.begin()` to
`strs.end()`. -/
def of_string_set (name : String) (strs : List String) (mod : display_modifier) :
    OutputTreeNode :=
  { blank name STRINGS mod with _strings_data := some (some strs) }

/-- Constructor `OutputTreeNode(name, plugin::LEVEL level, mod = NONE)`. -/
def of_level (name : String) (level : LEVEL) (mod : display_modifier) : OutputTreeNode :=
  { blank name THREAT_LEVEL mod with _level_data := some (some level) }

/-- Constructor `OutputTreeNode(name, enum node_type type, mod = NONE)`: only a
`LIST` or a `STRINGS` node gets a payload, an empty container. -/
def of_type (name : String) (type : node_type) (mod : display_modifier) : OutputTreeNode :=
  match type with
  | LIST => { blank name type mod with _list_data := some (some []) }
  | STRINGS => { blank name type mod with _strings_data := some (some []) }
  | _ => blank name type mod

/-- Member `get_name`. -/
def get_name (n : OutputTreeNode) : String := n._name

/-- Member `get_type`. -/
def get_type (n : OutputTreeNode) : node_type := n._type

/-- Member `get_modifier`. -/
def get_modifier (n : OutputTreeNode) : display_modifier := n._modifier

/-- Member `set_modifier`. -/
def set_modifier (n : OutputTreeNode) (mod : display_modifier) : OutputTreeNode :=
  { n with _modifier := mod }

/-- The test `!p || !*p` on a slot: the pointer is null or the optional empty. -/
def absent {α : Type} (p : Option (Option α)) : Bool :=
  match p with
  | some (some _) => false
  | _ => true

/-- The expression `**p` on a slot, undefined on a null pointer and on an empty
optional. -/
def deref {α : Type} (p : Option (Option α)) : Option α :=
  match p with
  | some (some v) => some v
  | _ => none

end OutputTreeNode

/-- The `basefield` format flag of a stream, `std::dec` or `std::hex`. -/
inductive basefield where
  | dec | hex
deriving DecidableEq, Repr

/-- A `std::stringstream` as `to_string` uses it: the base flag and the text
written so far.  The other format flags keep their defaults (no `uppercase`,
no `showbase`, width 0) and the locale is the classic one. -/
structure stringstream where
  base : basefield
  buf : String
deriving DecidableEq, Repr

namespace stringstream

/-- A default-constructed `std::stringstream`: empty, decimal base. -/
def init : stringstream := { base := basefield.dec, buf := "" }

/-- The manipulators `ss << std::hex` and `ss << std::dec`. -/
def setbase (ss : stringstream) (b : basefield) : stringstream := { ss with base := b }

/-- Insertion of a character string, `ss << "0x"`. -/
def put (ss : stringstream) (s : String) : stringstream := { ss with buf := ss.buf ++ s }

/-- Insertion of an unsigned integer (`unsigned short`, `unsigned int`,
`unsigned long`): its digits in the stream base, lowercase, without prefix or
padding, as `std::num_put` writes them under the default flags. -/
def put_unsigned (ss : stringstream) (v : Nat) : stringstream :=
  match ss.base with
  | basefield.dec => ss.put (String.mk (Nat.toDigits 10 v))
  | basefield.hex => ss.put (String.mk (Nat.toDigits 16 v))

/-- Member `str()`. -/
def str (ss : stringstream) : String := ss.buf

end stringstream

/-- The stream inserters `operator<<` for the payload types whose text form the
sources do not fix: `float`, `double` (floating-point conversion of the
standard library, which ignores the base flag) and `plugin::LEVEL` (declared
in `threat_level.h`, not among the sources; its text may depend on the base
flag of the stream). -/
structure inserters where
  float_text : Nat → String
  double_text : Nat → String
  level_text : basefield → plugin.LEVEL → String

namespace OutputTreeNode

/-- Member `to_string`.  The result is `none` where the code dereferences a null
pointer or an empty optional. -/
def to_string (ins : inserters) (n : OutputTreeNode) : Option (String × List String) :=
  if n._type = STRING then
    (deref n._string_data).map fun s => (s, [])
  else
    let ss := stringstream.init
    let ss :=
      if n._modifier = HEX then (ss.setbase basefield.hex).put "0x"
      else if n._modifier = DEC then ss.setbase basefield.dec
      else ss
    match n._type with
    | UINT32 => (deref n._uint32_data).map fun v => ((ss.put_unsigned v).str, [])
    | UINT16 => (deref n._uint16_data).map fun v => ((ss.put_unsigned v).str, [])
    | UINT64 => (deref n._uint64_data).map fun v => ((ss.put_unsigned v).str, [])
    | FLOAT => (deref n._float_data).map fun v => ((ss.put (ins.float_text v)).str, [])
    | DOUBLE => (deref n._double_data).map fun v => ((ss.put (ins.double_text v)).str, [])
    | THREAT_LEVEL =>
      (deref n._level_data).map fun v => ((ss.put (ins.level_text ss.base v)).str, [])
    | LIST | STRINGS =>
      some (ss.str, ["[OutputTreeNode] Called to_string() on a LIST or a STRINGS node!"])
    | t =>
      some (ss.str,
        ["[OutputTreeNode] No _to_string() implementation for " ++ toString t.value ++ "!"])

/-- Member `get_level`. -/
def get_level (n : OutputTreeNode) : LEVEL × List String :=
  if n._type ≠ THREAT_LEVEL then
    (LEVEL.NO_OPINION,
      ["[OutputTreeNode] Tried to get a level, but is not a THREAT_LEVEL node!"])
  else
    match n._level_data with
    | some (some l) => (l, [])
    | _ => (LEVEL.NO_OPINION, ["[OutputTreeNode] A THREAT_LEVEL node's data is empty!"])

/-- Member `get_strings() const`; a null `shared_strings` is `none`. -/
def get_strings_const (n : OutputTreeNode) : Option strings × List String :=
  if n._type ≠ STRINGS then
    (none, ["[OutputTreeNode] Tried to get strings, but is not a STRINGS node!"])
  else
    match n._strings_data with
    | some (some strs) => (some strs, [])
    | _ => (none, ["[OutputTreeNode] A STRINGS node's data is empty!"])

/-- Member `append(pNode node)`. -/
def append (n : OutputTreeNode) (node : OutputTreeNode) : OutputTreeNode × List String :=
  if n._type ≠ LIST then
    (n, ["[OutputTreeNode] Tried to append a node, but is not a list of nodes!"])
  else
    match n._list_data with
    | some (some l) => ({ n with _list_data := some (some (l ++ [node])) }, [])
    | _ => ({ n with _list_data := some (some ([] ++ [node])) }, [])

/-- Member `get_children`; a null `pNodes` is `none`. -/
def get_children (n : OutputTreeNode) : Option nodes × List String :=
  if n._type ≠ LIST then
    (none, ["[OutputTreeNode] Tried to get the children of a non-LIST node!"])
  else
    match n._list_data with
    | some (some l) => (some l, [])
    | _ => (none, ["[OutputTreeNode] A LIST node's data is empty!"])

/-- Member `clear`. -/
def clear (n : OutputTreeNode) : OutputTreeNode × List String :=
  if n._type ≠ LIST then
    (n, ["[OutputTreeNode] Tried to clear a non-LIST node!"])
  else
    match n._list_data with
    | some (some _) => ({ n with _list_data := some (some []) }, [])
    | _ => (n, ["[OutputTreeNode] A LIST node's data is empty!"])

/-- Member `update_value(const std::string& s)`. -/
def update_value (n : OutputTreeNode) (s : String) : OutputTreeNode × List String :=
  if n._type ≠ STRING then
    (n, ["[OutputTreeNode] Tried to set a string in a non-STRING node!"])
  else
    match n._string_data with
    | some (some _) => ({ n with _string_data := some (some s) }, [])
    | _ => (n, ["[OutputTreeNode] A STRING node's data is empty!"])

/-- Member `update_value(plugin::LEVEL level)`. -/
def update_value_level (n : OutputTreeNode) (level : LEVEL) : OutputTreeNode × List String :=
  if n._type ≠ THREAT_LEVEL then
    (n, ["[OutputTreeNode] Tried to set a LEVEL in a non-THREAT_LEVEL node!"])
  else
    match n._level_data with
    | some (some _) => ({ n with _level_data := some (some level) }, [])
    | _ => (n, ["[OutputTreeNode] A LEVEL node's data is empty!"])

/-- Member `get_strings()`, the overload that is not `const`. -/
def get_strings (n : OutputTreeNode) : Option strings × List String :=
  if n._type ≠ STRINGS then
    (none, ["[OutputTreeNode] Tried to get the strings of a non-STRING node!"])
  else
    match n._strings_data with
    | some (some strs) => (some strs, [])
    | _ => (none, ["[OutputTreeNode] A STRINGS node's data is empty!"])

/-- Member `append(const std::string& s)`. -/
def append_string (n : OutputTreeNode) (s : String) : OutputTreeNode × List String :=
  if n._type ≠ STRINGS then
    (n, ["[OutputTreeNode] Tried to append a string, but is not a list of strings!"])
  else
    match n._strings_data with
    | some (some l) => ({ n with _strings_data := some (some (l ++ [s])) }, [])
    | _ => ({ n with _strings_data := some (some ([] ++ [s])) }, [])

/-- Member `append(const strings& strs)`. -/
def append_strings (n : OutputTreeNode) (strs : strings) : OutputTreeNode × List String :=
  if n._type ≠ STRINGS then
    (n, ["[OutputTreeNode] Tried to append strings, but is not a list of strings!"])
  else
    match n._strings_data with
    | some (some l) => ({ n with _strings_data := some (some (l ++ strs)) }, [])
    | _ => ({ n with _strings_data := some (some strs) }, [])

/-- A call of one of the public members that may change a node, with its
arguments. -/
inductive mutation where
  | set_modifier (mod : display_modifier) : mutation
  | append (node : OutputTreeNode) : mutation
  | append_string (s : String) : mutation
  | append_strings (strs : strings) : mutation
  | clear : mutation
  | update_value (s : String) : mutation
  | update_value_level (level : LEVEL) : mutation

/-- The node after one call; the lines logged by the call are dropped. -/
def mutation.apply (n : OutputTreeNode) : mutation → OutputTreeNode
  | mutation.set_modifier mod => n.set_modifier mod
  | mutation.append node => (n.append node).1
  | mutation.append_string s => (n.append_string s).1
  | mutation.append_strings strs => (n.append_strings strs).1
  | mutation.clear => n.clear.1
  | mutation.update_value s => (n.update_value s).1
  | mutation.update_value_level level => (n.update_value_level level).1

/-- The node after a sequence of calls, first call first. -/
def run (n : OutputTreeNode) (ms : List mutation) : OutputTreeNode :=
  ms.foldl mutation.apply n

/-- The nodes a constructor returns; the integer arguments are bounded by
their C++ types. -/
inductive constructed : OutputTreeNode → Prop where
  | of_uint32 (name : String) (i : Nat) (mod : display_modifier) :
      i < 2 ^ 32 → constructed (of_uint32 name i mod)
  | of_uint16 (name : String) (s : Nat) (mod : display_modifier) :
      s < 2 ^ 16 → constructed (of_uint16 name s mod)
  | of_uint64 (name : String) (l : Nat) (mod : display_modifier) :
      l < 2 ^ 64 → constructed (of_uint64 name l mod)
  | of_float (name : String) (f : Nat) (mod : display_modifier) :
      f < 2 ^ 32 → constructed (of_float name f mod)
  | of_double (name : String) (d : Nat) (mod : display_modifier) :
      d < 2 ^ 64 → constructed (of_double name d mod)
  | of_string (name : String) (s : String) (mod : display_modifier) :
      constructed (of_string name s mod)
  | of_nodes (name : String) (n : nodes) (mod : display_modifier) :
      constructed (of_nodes name n mod)
  | of_strings (name : String) (strs : strings) (mod : display_modifier) :
      constructed (of_strings name strs mod)
  | of_string_set (name : String) (strs : List String) (mod : display_modifier) :
      constructed (of_string_set name strs mod)
  | of_level (name : String) (level : LEVEL) (mod : display_modifier) :
      constructed (of_level name level mod)
  | of_type (name : String) (type : node_type) (mod : display_modifier) :
      constructed (of_type name type mod)

end OutputTreeNode

namespace OutputTreeNode

/-- A slot is populated when its pointer is not null. -/
def populated {α : Type} (p : Option (Option α)) : Bool := p.isSome

/-- Only the slot of the node's own kind may be populated: a populated slot
fixes the kind. -/
def own_slot_only (n : OutputTreeNode) : Prop :=
  (populated n._uint32_data = true → n._type = UINT32) ∧
  (populated n._uint16_data = true → n._type = UINT16) ∧
  (populated n._uint64_data = true → n._type = UINT64) ∧
  (populated n._float_data = true → n._type = FLOAT) ∧
  (populated n._double_data = true → n._type = DOUBLE) ∧
  (populated n._string_data = true → n._type = STRING) ∧
  (populated n._list_data = true → n._type = LIST) ∧
  (populated n._strings_data = true → n._type = STRINGS) ∧
  (populated n._level_data = true → n._type = THREAT_LEVEL)

instance (n : OutputTreeNode) : Decidable (own_slot_only n) := by
  unfold own_slot_only
  infer_instance

mutual

/-- Modelled from the spec: the body of `find_node` is not among the sources
(the header only declares it).  This is the node the search returns on `n`:
nothing unless `n` is a `LIST`; otherwise the first direct child, in insertion
order, whose name is `name`, and only when there is none the first match
found by descending into the children, in order. -/
def find_in (name : String) : OutputTreeNode → Option OutputTreeNode
  | ⟨_, t, _, _, _, _, _, _, l, _, _, _⟩ => if t = LIST then find_in_slot name l else none

/-- Modelled from the spec: the search of `find_node` on the list slot of a
`LIST` node; a null pointer holds no children. -/
def find_in_slot (name : String) :
    Option (Option (List OutputTreeNode)) → Option OutputTreeNode
  | some o => find_in_children name o
  | none => none

/-- Modelled from the spec: the search of `find_node` on the child sequence:
the direct children are checked for the name before any of them is descended
into; an empty optional holds no children. -/
def find_in_children (name : String) : Option (List OutputTreeNode) → Option OutputTreeNode
  | some cs =>
    match cs.find? (fun c => c._name == name) with
    | some c => some c
    | none => find_below name cs
  | none => none

/-- Modelled from the spec: the fallback of `find_node`: each child that is
itself a `LIST` is searched in turn, and the first match is returned. -/
def find_below (name : String) : List OutputTreeNode → Option OutputTreeNode
  | [] => none
  | c :: cs =>
    if c._type = LIST then
      match find_in name c with
      | some r => some r
      | none => find_below name cs
    else find_below name cs

end

/-- Modelled from the spec: member `find_node`, whose body is not among the
sources.  On a node that is not a `LIST` it logs a warning (the spec does not
give its text) and returns a null pointer, `none`; on a `LIST` it returns
the result of the search. -/
def find_node (n : OutputTreeNode) (name : String) : Option OutputTreeNode × List String :=
  if n._type ≠ LIST then
    (none, ["[OutputTreeNode] Tried to find a node in a non-LIST node!"])
  else
    (find_in name n, [])

mutual

/-- The nodes below a node: the children of a `LIST` node, their children, and
so on; none for a node of another kind. -/
def descendants : OutputTreeNode → List OutputTreeNode
  | ⟨_, t, _, _, _, _, _, _, l, _, _, _⟩ => if t = LIST then descendants_slot l else []

/-- The nodes below a node, from its list slot. -/
def descendants_slot : Option (Option (List OutputTreeNode)) → List OutputTreeNode
  | some o => descendants_children o
  | none => []

/-- The nodes below a node, from its child sequence. -/
def descendants_children : Option (List OutputTreeNode) → List OutputTreeNode
  | some cs => descendants_list cs
  | none => []

/-- The nodes of a sequence together with the nodes below each of them. -/
def descendants_list : List OutputTreeNode → List OutputTreeNode
  | [] => []
  | c :: cs => c :: (descendants c ++ descendants_list cs)

end

end OutputTreeNode

/-- Modelled from the spec: the function `determine_max_width`, whose body is
not among the sources.  For a `LIST` node it is the largest length among the
names of the direct children, and 0 when there is none; for a node of another
kind it is 0.  The bound of the `unsigned int` result is not modelled. -/
def determine_max_width (node : OutputTreeNode) : Nat :=
  if node._type = LIST then
    match node._list_data with
    | some (some cs) => cs.foldl (fun w c => max w c._name.length) 0
    | _ => 0
  else 0

/-- One instance of `inserters`, for evaluating `to_string` on concrete nodes:
a floating-point payload is written as its bit pattern and a level as its
underlying integer (0 for the sentinel), in the stream base. -/
def inserters.sample : inserters :=
  { float_text := fun v => String.mk (Nat.toDigits 10 v),
    double_text := fun v => String.mk (Nat.toDigits 10 v),
    level_text := fun b l =>
      let v := match l with
        | plugin.LEVEL.NO_OPINION => 0
        | plugin.LEVEL.enumerator k => k
      match b with
      | basefield.dec => String.mk (Nat.toDigits 10 v)
      | basefield.hex => String.mk (Nat.toDigits 16 v) }

/-! Auxiliary facts. -/

/-- A decimal digit character reads back as its value and is a digit. -/
theorem digitChar_read (k : Nat) (h : k < 10) :
    (Nat.digitChar k).toNat - '0'.toNat = k ∧ (Nat.digitChar k).isDigit = true := by
  interval_cases k <;> decide

/-- A nonzero decimal digit is not the character `0`. -/
theorem digitChar_ne_zero (m : Nat) (h0 : 0 < m) (h : m < 10) : Nat.digitChar m ≠ '0' := by
  interval_cases m <;> decide

/-- Reading the decimal digits of `n`, written in front of `acc`, continues
from `n`. -/
theorem toDigitsCore_read (fuel : Nat) : ∀ (n : Nat) (acc : List Char), n < fuel →
    List.foldl (fun a c => a * 10 + (c.toNat - '0'.toNat)) 0 (Nat.toDigitsCore 10 fuel n acc)
      = List.foldl (fun a c => a * 10 + (c.toNat - '0'.toNat)) n acc := by
  induction fuel with
  | zero => intro n acc h; omega
  | succ f ih =>
    intro n acc h
    have hd := (digitChar_read (n % 10) (Nat.mod_lt _ (by decide))).1
    unfold Nat.toDigitsCore
    by_cases h0 : n / 10 = 0
    · simp only [h0, if_true, List.foldl_cons, hd]
      congr 1; omega
    · simp only [h0, if_false]
      rw [ih (n / 10) _ (by omega)]
      simp only [List.foldl_cons, hd]
      congr 1; omega

/-- Only digit characters are written. -/
theorem toDigitsCore_isDigit (fuel : Nat) : ∀ (n : Nat) (acc : List Char),
    (∀ c ∈ acc, c.isDigit = true) →
    ∀ c ∈ Nat.toDigitsCore 10 fuel n acc, c.isDigit = true := by
  induction fuel with
  | zero => intro n acc h; simpa [Nat.toDigitsCore] using h
  | succ f ih =>
    intro n acc h
    have hd := (digitChar_read (n % 10) (Nat.mod_lt _ (by decide))).2
    have hacc : ∀ c ∈ Nat.digitChar (n % 10) :: acc, c.isDigit = true := by
      intro c hc
      rcases List.mem_cons.1 hc with rfl | hc
      · exact hd
      · exact h c hc
    unfold Nat.toDigitsCore
    by_cases h0 : n / 10 = 0
    · simpa only [h0, if_true] using hacc
    · simp only [h0, if_false]
      exact ih _ _ hacc

/-- The first digit written for a positive number is not zero. -/
theorem toDigitsCore_head (fuel : Nat) : ∀ (n : Nat) (acc : List Char), 0 < n → n < fuel →
    ∃ m rest, 0 < m ∧ m < 10 ∧ Nat.toDigitsCore 10 fuel n acc = Nat.digitChar m :: rest := by
  induction fuel with
  | zero => intro n acc _ h; omega
  | succ f ih =>
    intro n acc hn h
    unfold Nat.toDigitsCore
    by_cases h0 : n / 10 = 0
    · refine ⟨n % 10, acc, by omega, Nat.mod_lt _ (by decide), ?_⟩
      simp only [h0, if_true]
    · simp only [h0, if_false]
      exact ih _ _ (by omega) (by omega)

/-- A nonempty string of digits is read by `String.toNat?` digit by digit. -/
theorem toNat_mk (l : List Char) (hne : l ≠ []) (hd : ∀ c ∈ l, c.isDigit = true) :
    (String.mk l).toNat? =
      some (List.foldl (fun a c => a * 10 + (c.toNat - '0'.toNat)) 0 l) := by
  have hempty : ¬ ((String.mk l).isEmpty = true) := by
    rw [String.isEmpty_iff]
    intro h
    exact hne (congrArg String.data h)
  have h1 : (String.mk l).isNat = true := by
    unfold String.isNat
    rw [String.all_eq]
    simp only [Bool.and_eq_true, Bool.not_eq_true', List.all_eq_true]
    exact ⟨by simpa using hempty, hd⟩
  unfold String.toNat?
  rw [if_pos h1, String.foldl_eq]

/-- The decimal text of `v`: it reads back as `v` and has no leading zero. -/
theorem decimal_text (v : Nat) :
    (String.mk (Nat.toDigits 10 v)).toNat? = some v ∧
    (v = 0 → String.mk (Nat.toDigits 10 v) = "0") ∧
    (0 < v → (Nat.toDigits 10 v).head? ≠ some '0') := by
  refine ⟨?_, ?_, ?_⟩
  · have hne : Nat.toDigits 10 v ≠ [] := by
      rcases Nat.eq_zero_or_pos v with rfl | hv
      · decide
      · obtain ⟨m, rest, -, -, h⟩ := toDigitsCore_head (v + 1) v [] hv (by omega)
        unfold Nat.toDigits
        rw [h]
        exact List.cons_ne_nil _ _
    rw [toNat_mk _ hne (toDigitsCore_isDigit _ _ _ (by simp))]
    unfold Nat.toDigits
    rw [toDigitsCore_read _ _ _ (by omega)]
    rfl
  · rintro rfl
    rfl
  · intro hv
    obtain ⟨m, rest, h0, h10, h⟩ := toDigitsCore_head (v + 1) v [] hv (by omega)
    unfold Nat.toDigits
    rw [h]
    simp only [List.head?_cons, ne_eq, Option.some.injEq]
    exact digitChar_ne_zero m h0 h10

namespace OutputTreeNode

/-- A slot that is not absent holds a value. -/
theorem absent_eq_false {α : Type} (p : Option (Option α)) (h : absent p = false) :
    ∃ v, p = some (some v) := by
  rcases p with _ | _ | v
  · simp [absent] at h
  · simp [absent] at h
  · exact ⟨v, rfl⟩

/-- No public mutation changes the kind, and none empties the container slot
of a `LIST` or `STRINGS` node. -/
theorem apply_keeps_containers (n : OutputTreeNode) (m : mutation)
    (h : (n._type = LIST → absent n._list_data = false) ∧
         (n._type = STRINGS → absent n._strings_data = false)) :
    (m.apply n)._type = n._type ∧
    ((m.apply n)._type = LIST → absent (m.apply n)._list_data = false) ∧
    ((m.apply n)._type = STRINGS → absent (m.apply n)._strings_data = false) := by
  obtain ⟨hl, hs⟩ := h
  cases m with
  | set_modifier mod => exact ⟨rfl, hl, hs⟩
  | append node =>
    by_cases ht : n._type = LIST
    · rcases hd : n._list_data with _ | _ | x <;>
        simp [mutation.apply, append, ht, hd, absent]
    · simpa [mutation.apply, append, ht] using hs
  | append_string s =>
    by_cases ht : n._type = STRINGS
    · rcases hd : n._strings_data with _ | _ | x <;>
        simp [mutation.apply, append_string, ht, hd, absent]
    · simpa [mutation.apply, append_string, ht] using hl
  | append_strings strs =>
    by_cases ht : n._type = STRINGS
    · rcases hd : n._strings_data with _ | _ | x <;>
        simp [mutation.apply, append_strings, ht, hd, absent]
    · simpa [mutation.apply, append_strings, ht] using hl
  | clear =>
    by_cases ht : n._type = LIST
    · rcases hd : n._list_data with _ | _ | x
      · simpa [mutation.apply, clear, ht, hd] using hl
      · simpa [mutation.apply, clear, ht, hd] using hl
      · simp [mutation.apply, clear, ht, hd, absent]
    · simpa [mutation.apply, clear, ht] using hs
  | update_value s =>
    by_cases ht : n._type = STRING
    · rcases hd : n._string_data with _ | _ | x <;>
        simp [mutation.apply, update_value, ht, hd]
    · simpa [mutation.apply, update_value, ht] using ⟨hl, hs⟩
  | update_value_level level =>
    by_cases ht : n._type = THREAT_LEVEL
    · rcases hd : n._level_data with _ | _ | x <;>
        simp [mutation.apply, update_value_level, ht, hd]
    · simpa [mutation.apply, update_value_level, ht] using ⟨hl, hs⟩

/-- Every constructor leaves the container slot of a `LIST` or `STRINGS` node
present. -/
theorem constructed_containers (n : OutputTreeNode) (h : constructed n) :
    (n._type = LIST → absent n._list_data = false) ∧
    (n._type = STRINGS → absent n._strings_data = false) := by
  cases h with
  | of_type name type mod => cases type <;> simp [of_type, blank, absent]
  | _ => simp [of_uint32, of_uint16, of_uint64, of_float, of_double, of_string, of_nodes,
      of_strings, of_string_set, of_level, blank, absent]

/-- After any sequence of mutations a node has the kind it started with and a
`LIST` or `STRINGS` node still has its container. -/
theorem run_keeps_containers (ms : List mutation) : ∀ (n : OutputTreeNode),
    ((n._type = LIST → absent n._list_data = false) ∧
     (n._type = STRINGS → absent n._strings_data = false)) →
    (run n ms)._type = n._type ∧
    ((run n ms)._type = LIST → absent (run n ms)._list_data = false) ∧
    ((run n ms)._type = STRINGS → absent (run n ms)._strings_data = false) := by
  induction ms with
  | nil => intro n h; exact ⟨rfl, h⟩
  | cons m ms ih =>
    intro n h
    have h1 := apply_keeps_containers n m h
    have h2 := ih (m.apply n) h1.2
    exact ⟨h2.1.trans h1.1, h2.2⟩

/-- Appending nodes one after the other to a `LIST` node that holds `cs`
yields a node whose children are `cs` followed by the appended nodes. -/
theorem get_children_foldl_append (ds : nodes) : ∀ (n : OutputTreeNode) (cs : nodes),
    n._type = LIST → n._list_data = some (some cs) →
    get_children (ds.foldl (fun m d => (append m d).1) n) = (some (cs ++ ds), []) := by
  induction ds with
  | nil => intro n cs ht hd; simp [get_children, ht, hd]
  | cons d ds ih =>
    intro n cs ht hd
    rw [List.foldl_cons, ih (append n d).1 (cs ++ [d])]
    · simp
    · simp [append, ht, hd]
    · simp [append, ht, hd]

/-- On a `THREAT_LEVEL` node whose payload is present, `get_level` returns the
level that `update_value(level)` has just stored. -/
theorem get_level_update_value_level (n : OutputTreeNode) (l x : LEVEL)
    (ht : n._type = THREAT_LEVEL) (hx : n._level_data = some (some x)) :
    get_level (update_value_level n l).1 = (l, []) := by
  simp [get_level, update_value_level, ht, hx]

/-- After a sequence of `update_value(level)` calls on a `THREAT_LEVEL` node
whose payload is present, the payload is still present. -/
theorem update_value_level_foldl (ls : List LEVEL) : ∀ (n : OutputTreeNode),
    n._type = THREAT_LEVEL → absent n._level_data = false →
    (ls.foldl (fun m x => (update_value_level m x).1) n)._type = THREAT_LEVEL ∧
    absent (ls.foldl (fun m x => (update_value_level m x).1) n)._level_data = false := by
  induction ls with
  | nil => intro n ht hd; exact ⟨ht, hd⟩
  | cons l ls ih =>
    intro n ht hd
    obtain ⟨x, hx⟩ := absent_eq_false _ hd
    rw [List.foldl_cons]
    apply ih
    · simp [update_value_level, ht, hx]
    · simp [update_value_level, ht, hx, absent]

end OutputTreeNode

namespace OutputTreeNode

/-! The member `to_string`. -/

/-- C1: a `UINT32` node holding `v` with the `HEX` modifier is rendered as "0x"
followed by the hexadecimal digits of `v` in lowercase: 10 gives "0xa" and 255
gives "0xff", not the "0xA" of the comment above `to_string` nor "0xFF". -/
theorem to_string_uint32_hex_is_lowercase (ins : inserters) (name : String) :
    (∀ v : Nat, to_string ins (of_uint32 name v HEX)
      = some ("0x" ++ String.mk (Nat.toDigits 16 v), [])) ∧
    to_string ins (of_uint32 name 10 HEX) = some ("0xa", []) ∧
    to_string ins (of_uint32 name 10 HEX) ≠ some ("0xA", []) ∧
    to_string ins (of_uint32 name 255 HEX) = some ("0xff", []) ∧
    to_string ins (of_uint32 name 255 HEX) ≠ some ("0xFF", []) := by
  refine ⟨fun v => rfl, rfl, ?_, rfl, ?_⟩
  · have h : to_string ins (of_uint32 name 10 HEX) = some ("0xa", []) := rfl
    rw [h]
    decide
  · have h : to_string ins (of_uint32 name 255 HEX) = some ("0xff", []) := rfl
    rw [h]
    decide

/-- On a node whose kind is `UINT32`, `UINT16` or `UINT64`, whose slot of that
kind holds `v` and whose modifier is `DEC` or `NONE`, `to_string` logs nothing
and returns the decimal digits of `v`. -/
theorem to_string_unsigned_state (ins : inserters) (n : OutputTreeNode) (v : Nat)
    (hk : (n._type = UINT32 ∧ n._uint32_data = some (some v)) ∨
          (n._type = UINT16 ∧ n._uint16_data = some (some v)) ∨
          (n._type = UINT64 ∧ n._uint64_data = some (some v)))
    (hm : n._modifier = DEC ∨ n._modifier = NONE) :
    to_string ins n = some (String.mk (Nat.toDigits 10 v), []) := by
  rcases hk with ⟨ht, hd⟩ | ⟨ht, hd⟩ | ⟨ht, hd⟩ <;> rcases hm with hm | hm <;>
    simp [to_string, ht, hd, hm, deref, stringstream.init, stringstream.setbase,
      stringstream.put_unsigned, stringstream.put, stringstream.str]

/-- C2: a node constructed with the value `v` by the `UINT32`, the `UINT16` or
the `UINT64` constructor, whose modifier `mod` is `DEC` or `NONE` (given to the
constructor, or set afterwards by `set_modifier`), is rendered by `to_string`,
without a warning, as the decimal text of `v`: a text that `String.toNat?`
reads back as `v`, that is "0" when `v` is 0 and that does not start with the
digit 0 otherwise.  The same holds of every node of these kinds whose slot
holds `v`, however it was obtained. -/
theorem to_string_unsigned_decimal (ins : inserters) (name : String) (v : Nat)
    (mod m0 : display_modifier) (hm : mod = DEC ∨ mod = NONE) :
    to_string ins (of_uint32 name v mod) = some (String.mk (Nat.toDigits 10 v), []) ∧
    to_string ins (of_uint16 name v mod) = some (String.mk (Nat.toDigits 10 v), []) ∧
    to_string ins (of_uint64 name v mod) = some (String.mk (Nat.toDigits 10 v), []) ∧
    to_string ins (set_modifier (of_uint32 name v m0) mod)
      = some (String.mk (Nat.toDigits 10 v), []) ∧
    to_string ins (set_modifier (of_uint16 name v m0) mod)
      = some (String.mk (Nat.toDigits 10 v), []) ∧
    to_string ins (set_modifier (of_uint64 name v m0) mod)
      = some (String.mk (Nat.toDigits 10 v), []) ∧
    (∀ n : OutputTreeNode,
      ((n._type = UINT32 ∧ n._uint32_data = some (some v)) ∨
       (n._type = UINT16 ∧ n._uint16_data = some (some v)) ∨
       (n._type = UINT64 ∧ n._uint64_data = some (some v))) →
      n._modifier = mod →
      to_string ins n = some (String.mk (Nat.toDigits 10 v), [])) ∧
    (String.mk (Nat.toDigits 10 v)).toNat? = some v ∧
    (v = 0 → String.mk (Nat.toDigits 10 v) = "0") ∧
    (0 < v → (String.mk (Nat.toDigits 10 v)).data.head? ≠ some '0') := by
  have hstate : ∀ n : OutputTreeNode,
      ((n._type = UINT32 ∧ n._uint32_data = some (some v)) ∨
       (n._type = UINT16 ∧ n._uint16_data = some (some v)) ∨
       (n._type = UINT64 ∧ n._uint64_data = some (some v))) →
      n._modifier = mod →
      to_string ins n = some (String.mk (Nat.toDigits 10 v), []) := by
    intro n hk hn
    exact to_string_unsigned_state ins n v hk (by rw [hn]; exact hm)
  exact ⟨hstate _ (Or.inl ⟨rfl, rfl⟩) rfl,
    hstate _ (Or.inr (Or.inl ⟨rfl, rfl⟩)) rfl,
    hstate _ (Or.inr (Or.inr ⟨rfl, rfl⟩)) rfl,
    hstate _ (Or.inl ⟨rfl, rfl⟩) rfl,
    hstate _ (Or.inr (Or.inl ⟨rfl, rfl⟩)) rfl,
    hstate _ (Or.inr (Or.inr ⟨rfl, rfl⟩)) rfl,
    hstate, decimal_text v⟩

/-- Witness for C2: the three integer constructors at 255 with `DEC`, at 65535
with `NONE`, and the `UINT64` constructor at 2 ^ 64 - 1. -/
theorem to_string_unsigned_decimal_witness :
    (DEC = DEC ∨ DEC = NONE) ∧
    to_string inserters.sample (of_uint32 "size" 255 DEC) = some ("255", []) ∧
    to_string inserters.sample (of_uint16 "count" 255 DEC) = some ("255", []) ∧
    to_string inserters.sample (of_uint64 "offset" 255 DEC) = some ("255", []) ∧
    to_string inserters.sample (of_uint16 "count" 65535 NONE) = some ("65535", []) ∧
    to_string inserters.sample (set_modifier (of_uint32 "size" 65535 HEX) NONE)
      = some ("65535", []) ∧
    to_string inserters.sample (of_uint64 "offset" 18446744073709551615 DEC)
      = some ("18446744073709551615", []) :=
  ⟨Or.inl rfl,
   (to_string_unsigned_decimal inserters.sample "size" 255 DEC DEC (Or.inl rfl)).1,
   (to_string_unsigned_decimal inserters.sample "count" 255 DEC DEC (Or.inl rfl)).2.1,
   (to_string_unsigned_decimal inserters.sample "offset" 255 DEC DEC (Or.inl rfl)).2.2.1,
   (to_string_unsigned_decimal inserters.sample "count" 65535 NONE HEX (Or.inr rfl)).2.1,
   (to_string_unsigned_decimal inserters.sample "size" 65535 NONE HEX (Or.inr rfl)).2.2.2.1,
   (to_string_unsigned_decimal inserters.sample "offset" 18446744073709551615 DEC DEC
      (Or.inl rfl)).2.2.1⟩

/-- C3: on a `LIST` or `STRINGS` node with the `HEX` modifier `to_string` logs
its warning and returns "0x", not the empty string: the prefix is written
before the kind is looked at.  With `NONE` or `DEC` it returns the empty
string. -/
theorem to_string_container_hex (ins : inserters) (name : String)
    (mod : display_modifier) :
    to_string ins (of_type name LIST HEX)
      = some ("0x", ["[OutputTreeNode] Called to_string() on a LIST or a STRINGS node!"]) ∧
    to_string ins (of_type name STRINGS HEX)
      = some ("0x", ["[OutputTreeNode] Called to_string() on a LIST or a STRINGS node!"]) ∧
    to_string ins (of_type name LIST HEX)
      ≠ some ("", ["[OutputTreeNode] Called to_string() on a LIST or a STRINGS node!"]) ∧
    to_string ins (of_type name LIST mod)
      = some (if mod = HEX then "0x" else "",
          ["[OutputTreeNode] Called to_string() on a LIST or a STRINGS node!"]) ∧
    to_string ins (of_type name STRINGS mod)
      = some (if mod = HEX then "0x" else "",
          ["[OutputTreeNode] Called to_string() on a LIST or a STRINGS node!"]) := by
  refine ⟨rfl, rfl, ?_, ?_, ?_⟩
  · have h : to_string ins (of_type name LIST HEX)
        = some ("0x", ["[OutputTreeNode] Called to_string() on a LIST or a STRINGS node!"]) :=
      rfl
    rw [h]
    decide
  · cases mod <;> rfl
  · cases mod <;> rfl

/-- C4: on a node of a scalar kind built by the kind-only constructor,
`to_string` dereferences the null payload pointer: it has no defined result
and logs nothing. -/
theorem to_string_kind_only_scalar (ins : inserters) (name : String)
    (mod : display_modifier) :
    to_string ins (of_type name UINT32 mod) = none ∧
    to_string ins (of_type name UINT16 mod) = none ∧
    to_string ins (of_type name UINT64 mod) = none ∧
    to_string ins (of_type name FLOAT mod) = none ∧
    to_string ins (of_type name DOUBLE mod) = none ∧
    to_string ins (of_type name STRING mod) = none ∧
    to_string ins (of_type name THREAT_LEVEL mod) = none := by
  cases mod <;> exact ⟨rfl, rfl, rfl, rfl, rfl, rfl, rfl⟩

/-- C5: a `STRING` node constructed with the string `s` and any modifier is
rendered by `to_string` as exactly `s`, without a warning, also after
`set_modifier` gave it another modifier. -/
theorem to_string_string_verbatim (ins : inserters) (name s : String)
    (m m2 : display_modifier) :
    to_string ins (of_string name s m) = some (s, []) ∧
    to_string ins (set_modifier (of_string name s m) m2) = some (s, []) :=
  ⟨rfl, rfl⟩

/-! The member `update_value`. -/

/-- C6: `update_value(s)` logs nothing exactly when the node is a `STRING` node
whose payload is present, and `to_string` then returns `s`; on every other node
it logs one warning and returns the node unchanged.  In particular it takes
effect on a `STRING` node constructed with an initial value and is rejected on
one built by the kind-only constructor. -/
theorem update_value_string (ins : inserters) (n : OutputTreeNode) (s name s0 : String)
    (m : display_modifier) :
    ((update_value n s).2 = [] ↔ (n._type = STRING ∧ absent n._string_data = false)) ∧
    ((n._type = STRING ∧ absent n._string_data = false) →
      to_string ins (update_value n s).1 = some (s, [])) ∧
    (¬ (n._type = STRING ∧ absent n._string_data = false) →
      (update_value n s).1 = n ∧ ∃ w, (update_value n s).2 = [w]) ∧
    (update_value (of_string name s0 m) s).2 = [] ∧
    to_string ins (update_value (of_string name s0 m) s).1 = some (s, []) ∧
    update_value (of_type name STRING m) s
      = (of_type name STRING m, ["[OutputTreeNode] A STRING node's data is empty!"]) := by
  refine ⟨?_, ?_, ?_, rfl, rfl, rfl⟩
  · by_cases ht : n._type = STRING
    · rcases hd : n._string_data with _ | _ | x <;>
        simp [update_value, ht, hd, absent]
    · simp [update_value, ht]
  · rintro ⟨ht, ha⟩
    rcases hd : n._string_data with _ | _ | x
    · simp [hd, absent] at ha
    · simp [hd, absent] at ha
    · simp [update_value, to_string, ht, hd, deref]
  · intro h
    by_cases ht : n._type = STRING
    · rcases hd : n._string_data with _ | _ | x
      · simp [update_value, ht, hd]
      · simp [update_value, ht, hd]
      · exact absurd ⟨ht, by simp [hd, absent]⟩ h
    · simp [update_value, ht]

/-! Children of a `LIST` node. -/

/-- C7: if `get_children` returns the sequence `cs` for a node, then
`append(c)` logs nothing and `get_children` afterwards returns `cs` followed by
`c`; and appending the nodes `ds` one after the other to an empty `LIST` node
makes `get_children` return exactly `ds`, in that order, whatever nodes repeat
in it. -/
theorem append_then_get_children (n c : OutputTreeNode) (cs : nodes)
    (h : (get_children n).1 = some cs) :
    (append n c).2 = [] ∧
    get_children (append n c).1 = (some (cs ++ [c]), []) ∧
    (∀ (name : String) (mod : display_modifier) (ds : nodes),
      get_children (ds.foldl (fun m d => (append m d).1) (of_type name LIST mod))
        = (some ds, []) ∧
      get_children (ds.foldl (fun m d => (append m d).1) (of_nodes name [] mod))
        = (some ds, [])) := by
  have hn : n._type = LIST ∧ n._list_data = some (some cs) := by
    by_cases ht : n._type = LIST
    · rcases hd : n._list_data with _ | _ | x
      · simp [get_children, ht, hd] at h
      · simp [get_children, ht, hd] at h
      · simp [get_children, ht, hd] at h
        exact ⟨ht, by rw [h]⟩
    · simp [get_children, ht] at h
  obtain ⟨ht, hd⟩ := hn
  refine ⟨by simp [append, ht, hd], by simp [append, get_children, ht, hd], ?_⟩
  intro name mod ds
  constructor
  · simpa using get_children_foldl_append ds (of_type name LIST mod) [] rfl rfl
  · simpa using get_children_foldl_append ds (of_nodes name [] mod) [] rfl rfl

/-- Witness for C7: a `LIST` node holding the children "a" and "b", to which
"c" is appended. -/
theorem append_then_get_children_witness :
    (get_children (of_nodes "root" [of_uint32 "a" 1 DEC, of_string "b" "x" NONE] NONE)).1
      = some [of_uint32 "a" 1 DEC, of_string "b" "x" NONE] ∧
    get_children
        (append (of_nodes "root" [of_uint32 "a" 1 DEC, of_string "b" "x" NONE] NONE)
          (of_uint16 "c" 3 HEX)).1
      = (some [of_uint32 "a" 1 DEC, of_string "b" "x" NONE, of_uint16 "c" 3 HEX], []) :=
  ⟨rfl,
   (append_then_get_children
      (of_nodes "root" [of_uint32 "a" 1 DEC, of_string "b" "x" NONE] NONE)
      (of_uint16 "c" 3 HEX) [of_uint32 "a" 1 DEC, of_string "b" "x" NONE] rfl).2.1⟩

/-- C8: on a `LIST` node obtained from a constructor by any sequence of
mutations, `clear` logs nothing and `get_children` then returns the empty
sequence; a second `clear` logs nothing either and returns the node as the
first one left it. -/
theorem clear_idempotent (n0 : OutputTreeNode) (ms : List mutation)
    (h0 : constructed n0) (hL : (run n0 ms)._type = LIST) :
    (clear (run n0 ms)).2 = [] ∧
    get_children (clear (run n0 ms)).1 = (some [], []) ∧
    clear (clear (run n0 ms)).1 = ((clear (run n0 ms)).1, []) ∧
    get_children (clear (clear (run n0 ms)).1).1 = (some [], []) := by
  have hp := (run_keeps_containers ms n0 (constructed_containers n0 h0)).2.1 hL
  obtain ⟨cs, hcs⟩ := absent_eq_false _ hp
  simp [clear, get_children, hL, hcs]

/-- Witness for C8: a `LIST` node built by the kind-only constructor, given two
children and a new modifier. -/
theorem clear_idempotent_witness :
    constructed (of_type "root" LIST NONE) ∧
    (run (of_type "root" LIST NONE)
      [mutation.append (of_uint32 "a" 1 DEC), mutation.set_modifier HEX,
       mutation.append (of_string "b" "x" NONE)])._type = LIST ∧
    get_children (clear (run (of_type "root" LIST NONE)
      [mutation.append (of_uint32 "a" 1 DEC), mutation.set_modifier HEX,
       mutation.append (of_string "b" "x" NONE)])).1 = (some [], []) :=
  ⟨constructed.of_type "root" LIST NONE, rfl,
   (clear_idempotent (of_type "root" LIST NONE)
      [mutation.append (of_uint32 "a" 1 DEC), mutation.set_modifier HEX,
       mutation.append (of_string "b" "x" NONE)]
      (constructed.of_type "root" LIST NONE) rfl).2.1⟩

/-! The members `get_strings` and `get_level`. -/

/-- C9, as the claim states it, fails: on a `UINT32` node neither overload of
`get_strings` returns an empty sequence; both return a null pointer. -/
theorem get_strings_uint32_not_empty_sequence :
    (get_strings (of_uint32 "size" 7 DEC)).1 ≠ some [] ∧
    (get_strings_const (of_uint32 "size" 7 DEC)).1 ≠ some [] ∧
    (get_strings (of_uint32 "size" 7 DEC)).1 = none ∧
    (get_strings_const (of_uint32 "size" 7 DEC)).1 = none := by
  decide

/-- C9, amended: on a node whose kind is not `STRINGS`, each overload of
`get_strings` returns a null pointer, no sequence at all, and logs exactly one
warning. -/
theorem get_strings_wrong_kind (n : OutputTreeNode) (h : n._type ≠ STRINGS) :
    get_strings n
      = (none, ["[OutputTreeNode] Tried to get the strings of a non-STRING node!"]) ∧
    get_strings_const n
      = (none, ["[OutputTreeNode] Tried to get strings, but is not a STRINGS node!"]) ∧
    (get_strings n).2.length = 1 ∧ (get_strings_const n).2.length = 1 := by
  simp [get_strings, get_strings_const, h]

/-- Witness for the amended C9: a `UINT32` node. -/
theorem get_strings_wrong_kind_witness :
    (of_uint32 "size" 7 DEC)._type ≠ STRINGS ∧
    get_strings (of_uint32 "size" 7 DEC)
      = (none, ["[OutputTreeNode] Tried to get the strings of a non-STRING node!"]) :=
  ⟨by decide, (get_strings_wrong_kind (of_uint32 "size" 7 DEC) (by decide)).1⟩

/-- C10: `get_level` logs nothing exactly when the node is a `THREAT_LEVEL` node
whose payload is present, and it then returns the stored level; on every other
node it logs one warning and returns `NO_OPINION`.  The stored level is the
one given to the constructor, or the one given to the latest `update_value`
call on such a node; a `THREAT_LEVEL` node built by the kind-only constructor
has no payload, also after `update_value`. -/
theorem get_level_spec (n : OutputTreeNode) (name : String) (mod : display_modifier)
    (t : node_type) (l0 l : LEVEL) (ls : List LEVEL) :
    ((get_level n).2 = [] ↔ (n._type = THREAT_LEVEL ∧ absent n._level_data = false)) ∧
    ((n._type = THREAT_LEVEL ∧ n._level_data = some (some l)) → get_level n = (l, [])) ∧
    (¬ (n._type = THREAT_LEVEL ∧ absent n._level_data = false) →
      (get_level n).1 = LEVEL.NO_OPINION ∧ ∃ w, (get_level n).2 = [w]) ∧
    get_level (of_level name l0 mod) = (l0, []) ∧
    get_level ((ls ++ [l]).foldl (fun m x => (update_value_level m x).1)
      (of_level name l0 mod)) = (l, []) ∧
    ((get_level (of_type name t mod)).1 = LEVEL.NO_OPINION ∧
      ∃ w, (get_level (of_type name t mod)).2 = [w]) ∧
    get_level (update_value_level (of_type name THREAT_LEVEL mod) l).1
      = (LEVEL.NO_OPINION, ["[OutputTreeNode] A THREAT_LEVEL node's data is empty!"]) := by
  refine ⟨?_, ?_, ?_, rfl, ?_, ?_, rfl⟩
  · by_cases ht : n._type = THREAT_LEVEL
    · rcases hd : n._level_data with _ | _ | x <;> simp [get_level, ht, hd, absent]
    · simp [get_level, ht]
  · rintro ⟨ht, hd⟩
    simp [get_level, ht, hd]
  · intro h
    by_cases ht : n._type = THREAT_LEVEL
    · rcases hd : n._level_data with _ | _ | x
      · simp [get_level, ht, hd]
      · simp [get_level, ht, hd]
      · exact absurd ⟨ht, by simp [hd, absent]⟩ h
    · simp [get_level, ht]
  · rw [List.foldl_append]
    obtain ⟨ht, hd⟩ := update_value_level_foldl ls (of_level name l0 mod) rfl rfl
    obtain ⟨x, hx⟩ := absent_eq_false _ hd
    simp only [List.foldl_cons, List.foldl_nil]
    exact get_level_update_value_level _ l x ht hx
  · cases t <;> simp [get_level, of_type, blank]

/-! Invariants of the node state. -/

/-- No public mutation populates a slot of another kind. -/
theorem apply_keeps_own_slot (n : OutputTreeNode) (m : mutation) (h : own_slot_only n) :
    own_slot_only (m.apply n) := by
  cases m with
  | set_modifier mod => exact h
  | append node =>
    by_cases ht : n._type = LIST
    · rcases hd : n._list_data with _ | _ | x <;>
        simp_all [own_slot_only, populated, mutation.apply, append]
    · simpa [mutation.apply, append, ht] using h
  | append_string s =>
    by_cases ht : n._type = STRINGS
    · rcases hd : n._strings_data with _ | _ | x <;>
        simp_all [own_slot_only, populated, mutation.apply, append_string]
    · simpa [mutation.apply, append_string, ht] using h
  | append_strings strs =>
    by_cases ht : n._type = STRINGS
    · rcases hd : n._strings_data with _ | _ | x <;>
        simp_all [own_slot_only, populated, mutation.apply, append_strings]
    · simpa [mutation.apply, append_strings, ht] using h
  | clear =>
    by_cases ht : n._type = LIST
    · rcases hd : n._list_data with _ | _ | x <;>
        simp_all [own_slot_only, populated, mutation.apply, clear]
    · simpa [mutation.apply, clear, ht] using h
  | update_value s =>
    by_cases ht : n._type = STRING
    · rcases hd : n._string_data with _ | _ | x <;>
        simp_all [own_slot_only, populated, mutation.apply, update_value]
    · simpa [mutation.apply, update_value, ht] using h
  | update_value_level level =>
    by_cases ht : n._type = THREAT_LEVEL
    · rcases hd : n._level_data with _ | _ | x <;>
        simp_all [own_slot_only, populated, mutation.apply, update_value_level]
    · simpa [mutation.apply, update_value_level, ht] using h

/-- Every constructor populates at most the slot of the kind it sets. -/
theorem constructed_own_slot (n : OutputTreeNode) (h : constructed n) : own_slot_only n := by
  cases h with
  | of_type name type mod => cases type <;> simp [own_slot_only, populated, of_type, blank]
  | _ => simp [own_slot_only, populated, of_uint32, of_uint16, of_uint64, of_float, of_double,
      of_string, of_nodes, of_strings, of_string_set, of_level, blank]

/-- No sequence of public mutations populates a slot of another kind. -/
theorem run_keeps_own_slot (ms : List mutation) : ∀ (n : OutputTreeNode),
    own_slot_only n → own_slot_only (run n ms) := by
  induction ms with
  | nil => intro n h; exact h
  | cons m ms ih => intro n h; exact ih (m.apply n) (apply_keeps_own_slot n m h)

/-- No public mutation changes the name or the kind of a node. -/
theorem apply_keeps_name_type (n : OutputTreeNode) (m : mutation) :
    (m.apply n)._name = n._name ∧ (m.apply n)._type = n._type := by
  cases m with
  | set_modifier mod => exact ⟨rfl, rfl⟩
  | append node =>
    by_cases ht : n._type = LIST
    · rcases hd : n._list_data with _ | _ | x <;> simp [mutation.apply, append, ht, hd]
    · simp [mutation.apply, append, ht]
  | append_string s =>
    by_cases ht : n._type = STRINGS
    · rcases hd : n._strings_data with _ | _ | x <;>
        simp [mutation.apply, append_string, ht, hd]
    · simp [mutation.apply, append_string, ht]
  | append_strings strs =>
    by_cases ht : n._type = STRINGS
    · rcases hd : n._strings_data with _ | _ | x <;>
        simp [mutation.apply, append_strings, ht, hd]
    · simp [mutation.apply, append_strings, ht]
  | clear =>
    by_cases ht : n._type = LIST
    · rcases hd : n._list_data with _ | _ | x <;> simp [mutation.apply, clear, ht, hd]
    · simp [mutation.apply, clear, ht]
  | update_value s =>
    by_cases ht : n._type = STRING
    · rcases hd : n._string_data with _ | _ | x <;>
        simp [mutation.apply, update_value, ht, hd]
    · simp [mutation.apply, update_value, ht]
  | update_value_level level =>
    by_cases ht : n._type = THREAT_LEVEL
    · rcases hd : n._level_data with _ | _ | x <;>
        simp [mutation.apply, update_value_level, ht, hd]
    · simp [mutation.apply, update_value_level, ht]

/-- C11: in every node obtained from a constructor by any sequence of public
mutations, a payload slot whose pointer is not null is the slot of the node's
kind: no slot of another kind is ever populated. -/
theorem payload_matches_kind (n0 : OutputTreeNode) (ms : List mutation)
    (h0 : constructed n0) :
    own_slot_only (run n0 ms) :=
  run_keeps_own_slot ms n0 (constructed_own_slot n0 h0)

/-- Witness for C11: a `STRINGS` node built by the kind-only constructor, on
which accepted and rejected mutations are called. -/
theorem payload_matches_kind_witness :
    constructed (of_type "imports" STRINGS NONE) ∧
    own_slot_only (run (of_type "imports" STRINGS NONE)
      [mutation.append_string "kernel32.dll", mutation.update_value "x",
       mutation.append (of_uint32 "a" 1 DEC), mutation.update_value_level LEVEL.NO_OPINION,
       mutation.clear, mutation.append_strings ["a", "b"], mutation.set_modifier HEX]) :=
  ⟨constructed.of_type "imports" STRINGS NONE,
   (payload_matches_kind (of_type "imports" STRINGS NONE)
      [mutation.append_string "kernel32.dll", mutation.update_value "x",
       mutation.append (of_uint32 "a" 1 DEC), mutation.update_value_level LEVEL.NO_OPINION,
       mutation.clear, mutation.append_strings ["a", "b"], mutation.set_modifier HEX]
      (constructed.of_type "imports" STRINGS NONE))⟩

/-- C12: after any sequence of public mutations, accepted or rejected,
`get_type` and `get_name` return what they returned before it; in particular
what they returned right after construction. -/
theorem kind_and_name_immutable (n : OutputTreeNode) (ms : List mutation) :
    get_type (run n ms) = get_type n ∧ get_name (run n ms) = get_name n := by
  induction ms generalizing n with
  | nil => exact ⟨rfl, rfl⟩
  | cons m ms ih =>
    have h1 := apply_keeps_name_type n m
    have h2 := ih (m.apply n)
    exact ⟨h2.1.trans h1.2, h2.2.trans h1.1⟩

/-- C13: a `LIST` or `STRINGS` node obtained from a constructor by any sequence
of public mutations holds its container: `get_children` on a `LIST` node and
both `get_strings` on a `STRINGS` node return the stored sequence and log
nothing.  The kind-only constructor yields an empty container. -/
theorem container_never_absent (n0 : OutputTreeNode) (ms : List mutation)
    (h0 : constructed n0) :
    (get_type (run n0 ms) = LIST →
      ∃ cs, (run n0 ms)._list_data = some (some cs) ∧
        get_children (run n0 ms) = (some cs, [])) ∧
    (get_type (run n0 ms) = STRINGS →
      ∃ xs, (run n0 ms)._strings_data = some (some xs) ∧
        get_strings (run n0 ms) = (some xs, []) ∧
        get_strings_const (run n0 ms) = (some xs, [])) ∧
    (∀ (name : String) (mod : display_modifier),
      get_children (of_type name LIST mod) = (some [], []) ∧
      get_strings (of_type name STRINGS mod) = (some [], [])) := by
  have hp := (run_keeps_containers ms n0 (constructed_containers n0 h0)).2
  refine ⟨?_, ?_, fun name mod => ⟨rfl, rfl⟩⟩
  · intro hL
    obtain ⟨cs, hcs⟩ := absent_eq_false _ (hp.1 hL)
    have hL2 : (run n0 ms)._type = LIST := hL
    exact ⟨cs, hcs, by simp [get_children, hL2, hcs]⟩
  · intro hS
    obtain ⟨xs, hxs⟩ := absent_eq_false _ (hp.2 hS)
    have hS2 : (run n0 ms)._type = STRINGS := hS
    exact ⟨xs, hxs, by simp [get_strings, hS2, hxs], by simp [get_strings_const, hS2, hxs]⟩

/-- Witness for C13: a `LIST` node built by the kind-only constructor, cleared
after an append. -/
theorem container_never_absent_witness :
    constructed (of_type "root" LIST NONE) ∧
    ∃ cs, (run (of_type "root" LIST NONE)
        [mutation.append (of_uint32 "a" 1 DEC), mutation.clear])._list_data
          = some (some cs) ∧
      get_children (run (of_type "root" LIST NONE)
        [mutation.append (of_uint32 "a" 1 DEC), mutation.clear]) = (some cs, []) :=
  ⟨constructed.of_type "root" LIST NONE,
   (container_never_absent (of_type "root" LIST NONE)
      [mutation.append (of_uint32 "a" 1 DEC), mutation.clear]
      (constructed.of_type "root" LIST NONE)).1 rfl⟩

/-! Strings of a `STRINGS` node. -/

/-- A node for which `get_strings` returns a sequence is a `STRINGS` node that
holds this sequence. -/
theorem get_strings_some (n : OutputTreeNode) (xs : strings)
    (h : (get_strings n).1 = some xs) :
    n._type = STRINGS ∧ n._strings_data = some (some xs) := by
  by_cases ht : n._type = STRINGS
  · rcases hd : n._strings_data with _ | _ | x
    · simp [get_strings, ht, hd] at h
    · simp [get_strings, ht, hd] at h
    · simp [get_strings, ht, hd] at h
      exact ⟨ht, by rw [h]⟩
  · simp [get_strings, ht] at h

/-- Appending strings one after the other to a `STRINGS` node that holds `xs`
only extends the stored sequence. -/
theorem foldl_append_string (ys : strings) : ∀ (n : OutputTreeNode) (xs : strings),
    n._type = STRINGS → n._strings_data = some (some xs) →
    ys.foldl (fun m y => (append_string m y).1) n
      = { n with _strings_data := some (some (xs ++ ys)) } := by
  induction ys with
  | nil =>
    intro n xs _ hd
    cases n
    simp only [List.foldl_nil, List.append_nil] at hd ⊢
    rw [hd]
  | cons y ys ih =>
    intro n xs ht hd
    rw [List.foldl_cons, ih (append_string n y).1 (xs ++ [y])]
    · simp [append_string, ht, hd]
    · simp [append_string, ht, hd]
    · simp [append_string, ht, hd]

/-- C14: if `get_strings` returns `xs` for a node, then after `append(s)` it
returns `xs` followed by `s`, and after `append(ys)` it returns `xs` followed by
`ys`; both calls log nothing.  `append(ys)` returns the same node as appending
the elements of `ys` one after the other, and the node itself when `ys` is
empty. -/
theorem append_strings_spec (n : OutputTreeNode) (xs ys : strings) (s : String)
    (h : (get_strings n).1 = some xs) :
    (append_string n s).2 = [] ∧
    get_strings (append_string n s).1 = (some (xs ++ [s]), []) ∧
    (append_strings n ys).2 = [] ∧
    get_strings (append_strings n ys).1 = (some (xs ++ ys), []) ∧
    (append_strings n ys).1 = ys.foldl (fun m y => (append_string m y).1) n ∧
    (append_strings n []).1 = n := by
  obtain ⟨ht, hd⟩ := get_strings_some n xs h
  refine ⟨by simp [append_string, ht, hd], by simp [append_string, get_strings, ht, hd],
    by simp [append_strings, ht, hd], by simp [append_strings, get_strings, ht, hd], ?_, ?_⟩
  · rw [foldl_append_string ys n xs ht hd]
    simp [append_strings, ht, hd]
  · cases n
    simp only at ht hd
    simp [append_strings, ht, hd]

/-- Witness for C14: a `STRINGS` node holding "a", to which "b" and "c" are
appended at once. -/
theorem append_strings_spec_witness :
    (get_strings (of_strings "dlls" ["a"] NONE)).1 = some ["a"] ∧
    get_strings (append_strings (of_strings "dlls" ["a"] NONE) ["b", "c"]).1
      = (some ["a", "b", "c"], []) ∧
    (append_strings (of_strings "dlls" ["a"] NONE) ["b", "c"]).1
      = (append_string (append_string (of_strings "dlls" ["a"] NONE) "b").1 "c").1 :=
  ⟨rfl,
   (append_strings_spec (of_strings "dlls" ["a"] NONE) ["a"] ["b", "c"] "z" rfl).2.2.2.1,
   (append_strings_spec (of_strings "dlls" ["a"] NONE) ["a"] ["b", "c"] "z" rfl).2.2.2.2.1⟩

/-! Calls on a node of the wrong kind, and `set_modifier`. -/

/-- C15: on a node that is not a `LIST`, `append(node)` and `clear()` return the
node unchanged and log one warning each; on a node that is not a `STRINGS`
node, `append(string)` and `append(strings)` do. -/
theorem wrong_kind_mutators (n c : OutputTreeNode) (s : String) (strs : strings) :
    (n._type ≠ LIST →
      append n c
        = (n, ["[OutputTreeNode] Tried to append a node, but is not a list of nodes!"]) ∧
      clear n = (n, ["[OutputTreeNode] Tried to clear a non-LIST node!"])) ∧
    (n._type ≠ STRINGS →
      append_string n s
        = (n, ["[OutputTreeNode] Tried to append a string, but is not a list of strings!"]) ∧
      append_strings n strs
        = (n, ["[OutputTreeNode] Tried to append strings, but is not a list of strings!"])) := by
  constructor
  · intro h
    simp [append, clear, h]
  · intro h
    simp [append_string, append_strings, h]

/-- A text with "0x" in front is another text. -/
theorem hex_prefix_ne (t : String) : "0x" ++ t ≠ t := by
  intro h
  have hl := congrArg String.length h
  rw [String.length_append] at hl
  have h2 : "0x".length = 2 := rfl
  omega

/-- C16: on a `FLOAT` or `DOUBLE` node the `HEX` modifier puts "0x" in front of
the text that `NONE` and `DEC` give, so the text depends on the modifier; on a
`THREAT_LEVEL` node `HEX` puts "0x" in front as well and the level is written
with the stream in hexadecimal base. -/
theorem to_string_hex_on_other_kinds (ins : inserters) (name : String) (v : Nat)
    (l : LEVEL) :
    to_string ins (of_float name v NONE) = some (ins.float_text v, []) ∧
    to_string ins (of_float name v DEC) = some (ins.float_text v, []) ∧
    to_string ins (of_float name v HEX) = some ("0x" ++ ins.float_text v, []) ∧
    to_string ins (of_float name v HEX) ≠ to_string ins (of_float name v NONE) ∧
    to_string ins (of_double name v NONE) = some (ins.double_text v, []) ∧
    to_string ins (of_double name v DEC) = some (ins.double_text v, []) ∧
    to_string ins (of_double name v HEX) = some ("0x" ++ ins.double_text v, []) ∧
    to_string ins (of_double name v HEX) ≠ to_string ins (of_double name v NONE) ∧
    to_string ins (of_level name l NONE) = some (ins.level_text basefield.dec l, []) ∧
    to_string ins (of_level name l DEC) = some (ins.level_text basefield.dec l, []) ∧
    to_string ins (of_level name l HEX)
      = some ("0x" ++ ins.level_text basefield.hex l, []) := by
  have e1 : to_string ins (of_float name v NONE) = some ("" ++ ins.float_text v, []) := rfl
  have e2 : to_string ins (of_float name v DEC) = some ("" ++ ins.float_text v, []) := rfl
  have e3 : to_string ins (of_float name v HEX) = some ("0x" ++ ins.float_text v, []) := rfl
  have e4 : to_string ins (of_double name v NONE) = some ("" ++ ins.double_text v, []) := rfl
  have e5 : to_string ins (of_double name v DEC) = some ("" ++ ins.double_text v, []) := rfl
  have e6 : to_string ins (of_double name v HEX) = some ("0x" ++ ins.double_text v, []) := rfl
  have e7 : to_string ins (of_level name l NONE)
      = some ("" ++ ins.level_text basefield.dec l, []) := rfl
  have e8 : to_string ins (of_level name l DEC)
      = some ("" ++ ins.level_text basefield.dec l, []) := rfl
  have e9 : to_string ins (of_level name l HEX)
      = some ("0x" ++ ins.level_text basefield.hex l, []) := rfl
  simp only [String.empty_append] at e1 e2 e4 e5 e7 e8
  refine ⟨e1, e2, e3, ?_, e4, e5, e6, ?_, e7, e8, e9⟩
  · rw [e3, e1]
    intro h
    simp only [Option.some.injEq, Prod.mk.injEq, and_true] at h
    exact hex_prefix_ne _ h
  · rw [e6, e4]
    intro h
    simp only [Option.some.injEq, Prod.mk.injEq, and_true] at h
    exact hex_prefix_ne _ h

/-- C17: `set_modifier(m)` makes `get_modifier` return `m` and leaves the name,
the kind and every payload slot as they were, hence also what `get_children`,
`get_strings` and `get_level` return. -/
theorem set_modifier_frame (n : OutputTreeNode) (m : display_modifier) :
    get_modifier (set_modifier n m) = m ∧
    get_name (set_modifier n m) = get_name n ∧
    get_type (set_modifier n m) = get_type n ∧
    (set_modifier n m)._uint32_data = n._uint32_data ∧
    (set_modifier n m)._uint16_data = n._uint16_data ∧
    (set_modifier n m)._uint64_data = n._uint64_data ∧
    (set_modifier n m)._float_data = n._float_data ∧
    (set_modifier n m)._double_data = n._double_data ∧
    (set_modifier n m)._string_data = n._string_data ∧
    (set_modifier n m)._list_data = n._list_data ∧
    (set_modifier n m)._strings_data = n._strings_data ∧
    (set_modifier n m)._level_data = n._level_data ∧
    get_children (set_modifier n m) = get_children n ∧
    get_strings (set_modifier n m) = get_strings n ∧
    get_strings_const (set_modifier n m) = get_strings_const n ∧
    get_level (set_modifier n m) = get_level n :=
  ⟨rfl, rfl, rfl, rfl, rfl, rfl, rfl, rfl, rfl, rfl, rfl, rfl, rfl, rfl, rfl, rfl⟩

/-- C20: on every node, whatever its kind and whether its payload is present,
the two overloads of `get_strings` return the same sequence or both return a
null pointer, and they log the same number of warnings.  Neither body assigns
to a field, which is why both are functions of the node that return no new
node. -/
theorem get_strings_overloads_agree (n : OutputTreeNode) :
    (get_strings n).1 = (get_strings_const n).1 ∧
    (get_strings n).2.length = (get_strings_const n).2.length ∧
    ((get_strings n).1 = none ↔ (get_strings n).2 ≠ []) := by
  by_cases ht : n._type = STRINGS
  · rcases hd : n._strings_data with _ | _ | x <;>
      simp [get_strings, get_strings_const, ht, hd]
  · simp [get_strings, get_strings_const, ht]

/-! The search `find_node` and the width `determine_max_width`. -/

/-- A node for which `get_children` returns a sequence is a `LIST` node that
holds this sequence. -/
theorem get_children_some (n : OutputTreeNode) (cs : nodes)
    (h : (get_children n).1 = some cs) :
    n._type = LIST ∧ n._list_data = some (some cs) := by
  by_cases ht : n._type = LIST
  · rcases hd : n._list_data with _ | _ | x
    · simp [get_children, ht, hd] at h
    · simp [get_children, ht, hd] at h
    · simp [get_children, ht, hd] at h
      exact ⟨ht, by rw [h]⟩
  · simp [get_children, ht] at h

/-- The search on a `LIST` node that holds `cs`: a direct child first, the
descent otherwise. -/
theorem find_in_list (name : String) (n : OutputTreeNode) (cs : nodes)
    (ht : n._type = LIST) (hd : n._list_data = some (some cs)) :
    find_in name n =
      match cs.find? (fun c => c._name == name) with
      | some c => some c
      | none => find_below name cs := by
  cases n
  simp only at ht hd
  subst ht hd
  simp [find_in, find_in_slot, find_in_children]

/-- The nodes below a `LIST` node that holds `cs`. -/
theorem descendants_list_eq (n : OutputTreeNode) (cs : nodes)
    (ht : n._type = LIST) (hd : n._list_data = some (some cs)) :
    descendants n = descendants_list cs := by
  cases n
  simp only at ht hd
  subst ht hd
  simp [descendants, descendants_slot, descendants_children]

mutual

/-- The search finds nothing on a node below which no node has the name. -/
theorem find_in_none (name : String) : ∀ (n : OutputTreeNode),
    (∀ d ∈ descendants n, d._name ≠ name) → find_in name n = none
  | ⟨_, t, _, _, _, _, _, _, l, _, _, _⟩, h => by
    by_cases ht : t = LIST
    · simp only [find_in, ht, if_true]
      simp only [descendants, ht, if_true] at h
      exact find_in_slot_none name l h
    · simp only [find_in, ht, if_false]

/-- The search finds nothing in a slot below which no node has the name. -/
theorem find_in_slot_none (name : String) : ∀ (l : Option (Option (List OutputTreeNode))),
    (∀ d ∈ descendants_slot l, d._name ≠ name) → find_in_slot name l = none
  | some o, h => by
    simp only [find_in_slot]
    simp only [descendants_slot] at h
    exact find_in_children_none name o h
  | none, _ => by simp only [find_in_slot]

/-- The search finds nothing in a child sequence in and below which no node has
the name. -/
theorem find_in_children_none (name : String) : ∀ (o : Option (List OutputTreeNode)),
    (∀ d ∈ descendants_children o, d._name ≠ name) → find_in_children name o = none
  | some cs, h => by
    simp only [descendants_children] at h
    have hdirect : cs.find? (fun c => c._name == name) = none := by
      rw [List.find?_eq_none]
      intro c hc
      have hmem : ∀ (l : List OutputTreeNode), c ∈ l → c ∈ descendants_list l := by
        intro l
        induction l with
        | nil => intro hx; exact absurd hx (List.not_mem_nil c)
        | cons a t ih =>
          intro hx
          simp only [descendants_list]
          rcases List.mem_cons.1 hx with rfl | hx
          · exact List.mem_cons_self _ _
          · exact List.mem_cons_of_mem _ (List.mem_append_right _ (ih hx))
      simpa using h c (hmem cs hc)
    simp only [find_in_children, hdirect]
    exact find_below_none name cs h
  | none, _ => by simp only [find_in_children]

/-- The descent finds nothing in a sequence in and below which no node has the
name. -/
theorem find_below_none (name : String) : ∀ (cs : List OutputTreeNode),
    (∀ d ∈ descendants_list cs, d._name ≠ name) → find_below name cs = none
  | [], _ => by simp only [find_below]
  | c :: cs, h => by
    simp only [descendants_list] at h
    have h1 : find_in name c = none :=
      find_in_none name c (fun d hd =>
        h d (List.mem_cons_of_mem _ (List.mem_append_left _ hd)))
    have h2 : find_below name cs = none :=
      find_below_none name cs (fun d hd =>
        h d (List.mem_cons_of_mem _ (List.mem_append_right _ hd)))
    simp only [find_below, h1, h2]
    split <;> rfl

end

/-- C18: on a `LIST` node whose children are `cs`, `find_node(name)` returns the
first direct child named `name` whenever a direct child has that name, whatever
lies deeper; it returns a null pointer when no node below the node has the
name, and on a node that is not a `LIST`, where it logs one warning.  For the
root whose children are the list "group", holding a node "target", and then a
leaf "target", it returns the leaf. -/
theorem find_node_spec (n : OutputTreeNode) (cs : nodes) (name : String)
    (h : (get_children n).1 = some cs) :
    (∀ c, cs.find? (fun c => c._name == name) = some c →
      find_node n name = (some c, [])) ∧
    ((∃ c ∈ cs, c._name = name) →
      ∃ r ∈ cs, r._name = name ∧ find_node n name = (some r, [])) ∧
    ((∀ d ∈ descendants n, d._name ≠ name) → find_node n name = (none, [])) ∧
    (∀ m : OutputTreeNode, m._type ≠ LIST →
      (find_node m name).1 = none ∧ ∃ w, (find_node m name).2 = [w]) ∧
    find_node
        (of_nodes "root"
          [of_nodes "group" [of_uint32 "target" 1 DEC] NONE, of_string "target" "leaf" NONE]
          NONE) "target"
      = (some (of_string "target" "leaf" NONE), []) := by
  obtain ⟨ht, hd⟩ := get_children_some n cs h
  have hdirect : ∀ c, cs.find? (fun c => c._name == name) = some c →
      find_node n name = (some c, []) := by
    intro c hc
    simp [find_node, ht, find_in_list name n cs ht hd, hc]
  refine ⟨hdirect, ?_, ?_, ?_, rfl⟩
  · rintro ⟨c, hc, hname⟩
    rcases hf : cs.find? (fun c => c._name == name) with _ | r
    · rw [List.find?_eq_none] at hf
      exact absurd (by simpa using hname) (hf c hc)
    · refine ⟨r, List.mem_of_find?_eq_some hf, ?_, hdirect r hf⟩
      simpa using List.find?_some hf
  · intro hnone
    simp [find_node, ht, find_in_none name n hnone]
  · intro m hm
    simp [find_node, hm]

/-- Witness for C18: the root of the example, whose second child is the first
direct child named "target". -/
theorem find_node_spec_witness :
    (get_children
        (of_nodes "root"
          [of_nodes "group" [of_uint32 "target" 1 DEC] NONE, of_string "target" "leaf" NONE]
          NONE)).1
      = some [of_nodes "group" [of_uint32 "target" 1 DEC] NONE,
          of_string "target" "leaf" NONE] ∧
    find_node
        (of_nodes "root"
          [of_nodes "group" [of_uint32 "target" 1 DEC] NONE, of_string "target" "leaf" NONE]
          NONE) "target"
      = (some (of_string "target" "leaf" NONE), []) :=
  ⟨rfl,
   (find_node_spec
      (of_nodes "root"
        [of_nodes "group" [of_uint32 "target" 1 DEC] NONE, of_string "target" "leaf" NONE]
        NONE)
      [of_nodes "group" [of_uint32 "target" 1 DEC] NONE, of_string "target" "leaf" NONE]
      "target" rfl).1 (of_string "target" "leaf" NONE) rfl⟩

end OutputTreeNode

open OutputTreeNode

/-- The running maximum of the name lengths: it is not below its start, it
bounds every name length, and it is the start or the length of a name. -/
theorem foldl_max_name (cs : nodes) : ∀ (w : Nat),
    w ≤ cs.foldl (fun w c => max w c._name.length) w ∧
    (∀ c ∈ cs, c._name.length ≤ cs.foldl (fun w c => max w c._name.length) w) ∧
    (cs.foldl (fun w c => max w c._name.length) w = w ∨
      ∃ c ∈ cs, c._name.length = cs.foldl (fun w c => max w c._name.length) w) := by
  induction cs with
  | nil => intro w; simp
  | cons a t ih =>
    intro w
    obtain ⟨h1, h2, h3⟩ := ih (max w a._name.length)
    simp only [List.foldl_cons]
    refine ⟨le_trans (le_max_left _ _) h1, ?_, ?_⟩
    · intro c hc
      rcases List.mem_cons.1 hc with rfl | hc
      · exact le_trans (le_max_right _ _) h1
      · exact h2 c hc
    · rcases h3 with h3 | ⟨c, hc, h3⟩
      · rcases le_total w a._name.length with hw | hw
        · right
          exact ⟨a, List.mem_cons_self _ _, by rw [h3, max_eq_right hw]⟩
        · left
          rw [h3, max_eq_left hw]
      · right
        exact ⟨c, List.mem_cons_of_mem _ hc, h3⟩

/-- C19: on a `LIST` node whose children are `cs`, `determine_max_width` is the
maximum of the lengths of the children's names: no name is longer and, unless
`cs` is empty, a child has a name of that length; it is 0 when `cs` is empty and
on every node that is not a `LIST`.  Names of grandchildren do not count.  For
children named "a", "b", "c" it is 1, and 5 once "delta" is appended. -/
theorem determine_max_width_spec (n : OutputTreeNode) (cs : nodes)
    (h : (get_children n).1 = some cs) :
    (∀ c ∈ cs, c._name.length ≤ determine_max_width n) ∧
    (cs ≠ [] → ∃ c ∈ cs, c._name.length = determine_max_width n) ∧
    (cs = [] → determine_max_width n = 0) ∧
    (∀ m : OutputTreeNode, m._type ≠ LIST → determine_max_width m = 0) ∧
    (∀ (n2 : OutputTreeNode) (cs2 : nodes), (get_children n2).1 = some cs2 →
      cs2.map (fun c => c._name) = cs.map (fun c => c._name) →
      determine_max_width n2 = determine_max_width n) ∧
    determine_max_width
        (of_nodes "root"
          [of_uint32 "a" 1 DEC, of_uint32 "b" 2 DEC, of_uint32 "c" 3 DEC] NONE) = 1 ∧
    determine_max_width
        (append
          (of_nodes "root"
            [of_uint32 "a" 1 DEC, of_uint32 "b" 2 DEC, of_uint32 "c" 3 DEC] NONE)
          (of_uint32 "delta" 4 DEC)).1 = 5 ∧
    determine_max_width
        (of_nodes "root" [of_nodes "g" [of_uint32 "grandchild" 1 DEC] NONE] NONE) = 1 := by
  obtain ⟨ht, hd⟩ := get_children_some n cs h
  have hw : determine_max_width n = cs.foldl (fun w c => max w c._name.length) 0 := by
    simp [determine_max_width, ht, hd]
  obtain ⟨-, h2, h3⟩ := foldl_max_name cs 0
  refine ⟨?_, ?_, ?_, ?_, ?_, by decide, by decide, by decide⟩
  · intro c hc
    rw [hw]
    exact h2 c hc
  · intro hne
    rcases h3 with h3 | ⟨c, hc, h3⟩
    · cases cs with
      | nil => exact absurd rfl hne
      | cons a t =>
        have ha := h2 a (List.mem_cons_self _ _)
        exact ⟨a, List.mem_cons_self _ _, by rw [hw]; omega⟩
    · exact ⟨c, hc, by rw [hw]; exact h3⟩
  · rintro rfl
    rw [hw]
    rfl
  · intro m hm
    simp [determine_max_width, hm]
  · intro n2 cs2 hc2 hnames
    obtain ⟨ht2, hd2⟩ := get_children_some n2 cs2 hc2
    have hw2 : determine_max_width n2 = cs2.foldl (fun w c => max w c._name.length) 0 := by
      simp [determine_max_width, ht2, hd2]
    have hmap : ∀ (l : nodes) (w : Nat),
        l.foldl (fun w c => max w c._name.length) w
          = (l.map (fun c => c._name)).foldl (fun w s => max w s.length) w := by
      intro l
      induction l with
      | nil => intro w; rfl
      | cons a t ih => intro w; simp only [List.foldl_cons, List.map_cons]; exact ih _
    rw [hw, hw2, hmap cs, hmap cs2, hnames]

/-- Witness for C19: a `LIST` node with the children "a", "b" and "delta",
whose width is at least the length of "delta". -/
theorem determine_max_width_spec_witness :
    (get_children
        (of_nodes "root"
          [of_uint32 "a" 1 DEC, of_uint32 "b" 2 DEC, of_uint32 "delta" 3 DEC] NONE)).1
      = some [of_uint32 "a" 1 DEC, of_uint32 "b" 2 DEC, of_uint32 "delta" 3 DEC] ∧
    (of_uint32 "delta" 3 DEC)._name.length ≤ determine_max_width
      (of_nodes "root"
        [of_uint32 "a" 1 DEC, of_uint32 "b" 2 DEC, of_uint32 "delta" 3 DEC] NONE) :=
  ⟨rfl,
   (determine_max_width_spec
      (of_nodes "root"
        [of_uint32 "a" 1 DEC, of_uint32 "b" 2 DEC, of_uint32 "delta" 3 DEC] NONE)
      [of_uint32 "a" 1 DEC, of_uint32 "b" 2 DEC, of_uint32 "delta" 3 DEC] rfl).1
      (of_uint32 "delta" 3 DEC)
      (List.mem_cons_of_mem _ (List.mem_cons_of_mem _ (List.mem_cons_self _ _)))⟩

end io
